import Mathlib

/-!
Shallow embedding of the DSAC coding-club server storage layer and routes.

Source files embedded here:
- shared/schema.ts : entity record types (drizzle table shapes and the
  insert schemas produced by createInsertSchema(...).pick(...)).
- server storage (MemStorage class) : JavaScript Map-based in-memory
  backend.  A JS Map is modelled as an association list in insertion
  order: set on an existing key replaces the value in place, set on a
  fresh key appends, delete removes the entry, and values() iterates in
  list order.
- server storage (PostgreSQLStorage class) : the SQL statements are
  translated over plain row lists.
- server routes (registerRoutes) : request handlers are functions from
  an optional authenticated user and a parsed body to an HTTP status
  and the next store state.

Effects are made explicit: the current time is a Nat parameter where the
code calls new Date(); thrown exceptions become Option results (paired
with the state the code leaves behind at the throw); the random
topProblem string of the leaderboard rows is not modelled (it carries no
invariant and both backends generate it randomly).
-/

namespace DSAC

/-- Association-list model of a JavaScript Map with Nat keys, in
insertion order. -/
abbrev JsMap (α : Type) := List (Nat × α)

/-- Map.prototype.get : first entry with the key, if any. -/
def mapGet (m : JsMap α) (k : Nat) : Option α :=
  (m.find? (fun e => e.1 == k)).map (fun e => e.2)

/-- Map.prototype.has. -/
def mapHas (m : JsMap α) (k : Nat) : Bool :=
  m.any (fun e => e.1 == k)

/-- Map.prototype.set : replace in place when the key is present,
append otherwise. -/
def mapSet (m : JsMap α) (k : Nat) (v : α) : JsMap α :=
  if mapHas m k then
    m.map (fun e => if e.1 == k then (k, v) else e)
  else
    m ++ [(k, v)]

/-- Map.prototype.delete (the removal part; the Bool result is mapHas). -/
def mapDelete (m : JsMap α) (k : Nat) : JsMap α :=
  m.filter (fun e => !(e.1 == k))

/-- Array.from(map.values()). -/
def mapValues (m : JsMap α) : List α :=
  m.map (fun e => e.2)

/-- The keys of the map hold no duplicates (true of every state a real
JS Map can be in). -/
def KeysNodup (m : JsMap α) : Prop :=
  (m.map (fun e => e.1)).Nodup

instance (m : JsMap α) : Decidable (KeysNodup m) :=
  inferInstanceAs (Decidable ((m.map (fun e : Nat × α => e.1)).Nodup))

/-! Entity records, from shared/schema.ts. Timestamps are Nats. -/

/-- users table row. -/
structure User where
  id : Nat
  username : String
  password : String
  displayName : String
  email : String
  avatar : Option String
  bio : Option String
  role : String
  level : String
  createdAt : Nat
deriving Repr, DecidableEq

/-- insertUserSchema : pick of username, password, displayName, email,
avatar, bio.  Note role and level are NOT in the insert schema. -/
structure InsertUser where
  username : String
  password : String
  displayName : String
  email : String
  avatar : Option String
  bio : Option String
deriving Repr, DecidableEq

/-- events table row. -/
structure Event where
  id : Nat
  title : String
  description : String
  eventType : String
  date : Nat
  duration : Int
  location : String
  createdBy : Nat
  createdAt : Nat
deriving Repr, DecidableEq

/-- insertEventSchema. -/
structure InsertEvent where
  title : String
  description : String
  eventType : String
  date : Nat
  duration : Int
  location : String
  createdBy : Nat
deriving Repr, DecidableEq

/-- event_registrations table row. -/
structure EventRegistration where
  id : Nat
  eventId : Nat
  userId : Nat
  registeredAt : Nat
deriving Repr, DecidableEq

/-- insertEventRegistrationSchema. -/
structure InsertEventRegistration where
  eventId : Nat
  userId : Nat
deriving Repr, DecidableEq

/-- contest_results table row. -/
structure ContestResult where
  id : Nat
  eventId : Nat
  userId : Nat
  position : Option Int
  score : Int
  createdAt : Nat
deriving Repr, DecidableEq

/-- insertContestResultSchema. -/
structure InsertContestResult where
  eventId : Nat
  userId : Nat
  position : Option Int
  score : Int
deriving Repr, DecidableEq

/-- forum_posts table row. -/
structure ForumPost where
  id : Nat
  title : String
  content : String
  userId : Nat
  views : Int
  tags : Option (List String)
  createdAt : Nat
  updatedAt : Nat
deriving Repr, DecidableEq

/-- insertForumPostSchema. -/
structure InsertForumPost where
  title : String
  content : String
  userId : Nat
  tags : Option (List String)
deriving Repr, DecidableEq

/-- forum_replies table row. -/
structure ForumReply where
  id : Nat
  postId : Nat
  content : String
  userId : Nat
  upvotes : Int
  isBestAnswer : Bool
  createdAt : Nat
  updatedAt : Nat
deriving Repr, DecidableEq

/-- insertForumReplySchema : postId, content, userId. -/
structure InsertForumReply where
  postId : Nat
  content : String
  userId : Nat
deriving Repr, DecidableEq

/-- resources table row. -/
structure Resource where
  id : Nat
  title : String
  description : String
  content : Option String
  resourceType : String
  link : Option String
  userId : Nat
  createdAt : Nat
  updatedAt : Nat
deriving Repr, DecidableEq

/-- insertResourceSchema. -/
structure InsertResource where
  title : String
  description : String
  content : Option String
  resourceType : String
  link : Option String
  userId : Nat
deriving Repr, DecidableEq

/-- TypeScript Partial of ForumReply, the replyData argument of
updateForumReply: every field optional. -/
structure ForumReplyPatch where
  id : Option Nat := none
  postId : Option Nat := none
  content : Option String := none
  userId : Option Nat := none
  upvotes : Option Int := none
  isBestAnswer : Option Bool := none
  createdAt : Option Nat := none
  updatedAt : Option Nat := none
deriving Repr, DecidableEq

/-- Leaderboard row shape shared by both backends (the random
topProblem string is not modelled). -/
structure LeaderboardRow where
  id : Nat
  username : String
  displayName : String
  avatar : Option String
  level : String
  score : Int
  contestCount : Nat
deriving Repr, DecidableEq

/-! The MemStorage class: its private Maps and id counters. -/

/-- Fields of the MemStorage class (the session store is not modelled). -/
structure MemState where
  users : JsMap User
  events : JsMap Event
  eventRegistrations : JsMap EventRegistration
  contestResults : JsMap ContestResult
  forumPosts : JsMap ForumPost
  forumReplies : JsMap ForumReply
  resources : JsMap Resource
  userId : Nat
  eventId : Nat
  eventRegistrationId : Nat
  contestResultId : Nat
  forumPostId : Nat
  forumReplyId : Nat
  resourceId : Nat
deriving Repr, DecidableEq

/-- The MemStorage constructor before the admin user is added: empty
maps, all counters 1. -/
def MemState.empty : MemState :=
  { users := [], events := [], eventRegistrations := [], contestResults := []
    forumPosts := [], forumReplies := [], resources := []
    userId := 1, eventId := 1, eventRegistrationId := 1, contestResultId := 1
    forumPostId := 1, forumReplyId := 1, resourceId := 1 }

/-- The seed admin user installed by the MemStorage constructor
(createdAt is the construction time). -/
def adminUser (now : Nat) : User :=
  { id := 1, username := "admin"
    password := "$2b$10$X4kv7j5ZcG39WgogSl1Z.edYQTThGZpLJ/zqxK5eTnStY3olD5Wm2"
    displayName := "Admin", email := "admin@dsac.com"
    avatar := some "https://api.dicebear.com/7.x/avataaars/svg?seed=admin"
    bio := some "Site administrator", role := "admin", level := "advanced"
    createdAt := now }

/-- State right after the MemStorage constructor runs. -/
def MemState.init (now : Nat) : MemState :=
  { MemState.empty with users := mapSet [] 1 (adminUser now), userId := 2 }

/-- Stable insertion for the descending sort by score (the JS
comparator is (a, b) => b.score - a.score, SQL uses ORDER BY score
DESC; Array.prototype.sort is stable). -/
def insertByScore (x : LeaderboardRow) : List LeaderboardRow → List LeaderboardRow
  | [] => [x]
  | y :: ys => if y.score ≤ x.score then x :: y :: ys else y :: insertByScore x ys

/-- Stable sort, descending by score. -/
def sortByScoreDesc (l : List LeaderboardRow) : List LeaderboardRow :=
  l.foldr insertByScore []

namespace MemStorage

/-- MemStorage.getUser. -/
def getUser (s : MemState) (id : Nat) : Option User :=
  mapGet s.users id

/-- MemStorage.createUser : id from the counter, role and level forced
to member and beginner after spreading the insert record. -/
def createUser (s : MemState) (insertUser : InsertUser) (now : Nat) :
    User × MemState :=
  let id := s.userId
  let user : User :=
    { id := id, username := insertUser.username, password := insertUser.password
      displayName := insertUser.displayName, email := insertUser.email
      role := "member", level := "beginner", createdAt := now
      avatar := insertUser.avatar, bio := insertUser.bio }
  (user, { s with users := mapSet s.users id user, userId := id + 1 })

/-- MemStorage.getEvent. -/
def getEvent (s : MemState) (id : Nat) : Option Event :=
  mapGet s.events id

/-- MemStorage.createEvent. -/
def createEvent (s : MemState) (insertEvent : InsertEvent) (now : Nat) :
    Event × MemState :=
  let id := s.eventId
  let event : Event :=
    { id := id, title := insertEvent.title, description := insertEvent.description
      eventType := insertEvent.eventType, date := insertEvent.date
      duration := insertEvent.duration, location := insertEvent.location
      createdBy := insertEvent.createdBy, createdAt := now }
  (event, { s with events := mapSet s.events id event, eventId := id + 1 })

/-- MemStorage.getEventRegistration : find over the values. -/
def getEventRegistration (s : MemState) (eventId userId : Nat) :
    Option EventRegistration :=
  (mapValues s.eventRegistrations).find?
    (fun reg => reg.eventId == eventId && reg.userId == userId)

/-- MemStorage.createEventRegistration. -/
def createEventRegistration (s : MemState) (ins : InsertEventRegistration)
    (now : Nat) : EventRegistration × MemState :=
  let id := s.eventRegistrationId
  let registration : EventRegistration :=
    { id := id, eventId := ins.eventId, userId := ins.userId, registeredAt := now }
  (registration,
    { s with eventRegistrations := mapSet s.eventRegistrations id registration
             eventRegistrationId := id + 1 })

/-- MemStorage.createContestResult. -/
def createContestResult (s : MemState) (ins : InsertContestResult) (now : Nat) :
    ContestResult × MemState :=
  let id := s.contestResultId
  let result : ContestResult :=
    { id := id, eventId := ins.eventId, userId := ins.userId
      position := ins.position, score := ins.score, createdAt := now }
  (result, { s with contestResults := mapSet s.contestResults id result
                    contestResultId := id + 1 })

/-- Accumulator entry of the userScores Map in MemStorage.getLeaderboard. -/
structure ScoreData where
  userId : Nat
  totalScore : Int
  contestCount : Nat
deriving Repr, DecidableEq

/-- Body of the loop over this.contestResults.values() in
MemStorage.getLeaderboard: read or default, add the score, bump the
count by one per result row. -/
def scoreStep (acc : JsMap ScoreData) (result : ContestResult) : JsMap ScoreData :=
  let currentData := (mapGet acc result.userId).getD
    { userId := result.userId, totalScore := 0, contestCount := 0 }
  mapSet acc result.userId
    { currentData with totalScore := currentData.totalScore + result.score
                       contestCount := currentData.contestCount + 1 }

/-- The userScores Map after the gathering loop of getLeaderboard. -/
def userScores (s : MemState) : JsMap ScoreData :=
  (mapValues s.contestResults).foldl scoreStep []

/-- MemStorage.getLeaderboard: aggregate, join each entry against the
users map (dropping entries whose user is missing), then sort by score
descending.  The random topProblem field is omitted. -/
def getLeaderboard (s : MemState) : List LeaderboardRow :=
  sortByScoreDesc ((userScores s).filterMap (fun e =>
    (mapGet s.users e.1).map (fun user =>
      { id := user.id, username := user.username, displayName := user.displayName
        avatar := user.avatar, level := user.level
        score := e.2.totalScore, contestCount := e.2.contestCount })))

/-- MemStorage.getForumPost. -/
def getForumPost (s : MemState) (id : Nat) : Option ForumPost :=
  mapGet s.forumPosts id

/-- MemStorage.createForumPost. -/
def createForumPost (s : MemState) (insertPost : InsertForumPost) (now : Nat) :
    ForumPost × MemState :=
  let id := s.forumPostId
  let post : ForumPost :=
    { id := id, title := insertPost.title, content := insertPost.content
      userId := insertPost.userId, views := 0, tags := insertPost.tags
      createdAt := now, updatedAt := now }
  (post, { s with forumPosts := mapSet s.forumPosts id post, forumPostId := id + 1 })

/-- MemStorage.deleteForumPost: the loop over
this.forumReplies.entries() deletes every reply whose postId matches,
then the post itself is deleted; the Bool is the result of
this.forumPosts.delete(id). -/
def deleteForumPost (s : MemState) (id : Nat) : Bool × MemState :=
  let replies := s.forumReplies.foldl
    (fun acc e => if e.2.postId == id then mapDelete acc e.1 else acc)
    s.forumReplies
  (mapHas s.forumPosts id,
    { s with forumReplies := replies, forumPosts := mapDelete s.forumPosts id })

/-- MemStorage.getForumReply. -/
def getForumReply (s : MemState) (id : Nat) : Option ForumReply :=
  mapGet s.forumReplies id

/-- MemStorage.createForumReply: upvotes 0, isBestAnswer false. -/
def createForumReply (s : MemState) (insertReply : InsertForumReply) (now : Nat) :
    ForumReply × MemState :=
  let id := s.forumReplyId
  let reply : ForumReply :=
    { id := id, postId := insertReply.postId, content := insertReply.content
      userId := insertReply.userId, upvotes := 0, isBestAnswer := false
      createdAt := now, updatedAt := now }
  (reply, { s with forumReplies := mapSet s.forumReplies id reply
                   forumReplyId := id + 1 })

/-- MemStorage.upvoteForumReply: throws (none) when the reply is
missing, otherwise increments upvotes. -/
def upvoteForumReply (s : MemState) (id : Nat) : Option ForumReply × MemState :=
  match mapGet s.forumReplies id with
  | none => (none, s)
  | some reply =>
    let r' := { reply with upvotes := reply.upvotes + 1 }
    (some r', { s with forumReplies := mapSet s.forumReplies id r' })

/-- The spread written as three objects in MemStorage.updateForumReply:
reply fields, overridden by the patch fields that are present, with
updatedAt always set to now. -/
def applyReplyPatch (reply : ForumReply) (p : ForumReplyPatch) (now : Nat) :
    ForumReply :=
  { id := p.id.getD reply.id, postId := p.postId.getD reply.postId
    content := p.content.getD reply.content, userId := p.userId.getD reply.userId
    upvotes := p.upvotes.getD reply.upvotes
    isBestAnswer := p.isBestAnswer.getD reply.isBestAnswer
    createdAt := p.createdAt.getD reply.createdAt, updatedAt := now }

/-- MemStorage.updateForumReply: undefined (none) when missing, else
store and return the patched reply. -/
def updateForumReply (s : MemState) (id : Nat) (replyData : ForumReplyPatch)
    (now : Nat) : Option ForumReply × MemState :=
  match mapGet s.forumReplies id with
  | none => (none, s)
  | some reply =>
    let updatedReply := applyReplyPatch reply replyData now
    (some updatedReply, { s with forumReplies := mapSet s.forumReplies id updatedReply })

/-- MemStorage.deleteForumReply. -/
def deleteForumReply (s : MemState) (id : Nat) : Bool × MemState :=
  (mapHas s.forumReplies id, { s with forumReplies := mapDelete s.forumReplies id })

/-- The reset loop at the top of MemStorage.markAsBestAnswer: every
reply of the post with isBestAnswer true is set back to false. -/
def clearBestAnswers (replies : JsMap ForumReply) (postId : Nat) : JsMap ForumReply :=
  replies.map (fun e =>
    if e.2.postId == postId && e.2.isBestAnswer then
      (e.1, { e.2 with isBestAnswer := false })
    else e)

/-- Per-reply form of the reset loop body. -/
def clearReply (postId : Nat) (r : ForumReply) : ForumReply :=
  if r.postId == postId && r.isBestAnswer then { r with isBestAnswer := false } else r

/-- MemStorage.markAsBestAnswer: clear first, then look the reply up;
the throw on a missing reply happens AFTER the clearing loop ran, so
the none branch keeps the cleared map. -/
def markAsBestAnswer (s : MemState) (postId replyId : Nat) :
    Option ForumReply × MemState :=
  let cleared := clearBestAnswers s.forumReplies postId
  match mapGet cleared replyId with
  | none => (none, { s with forumReplies := cleared })
  | some reply =>
    let r' := { reply with isBestAnswer := true }
    (some r', { s with forumReplies := mapSet cleared replyId r' })

/-- MemStorage.createResource. -/
def createResource (s : MemState) (ins : InsertResource) (now : Nat) :
    Resource × MemState :=
  let id := s.resourceId
  let resource : Resource :=
    { id := id, title := ins.title, description := ins.description
      link := ins.link, content := ins.content, resourceType := ins.resourceType
      userId := ins.userId, createdAt := now, updatedAt := now }
  (resource, { s with resources := mapSet s.resources id resource
                      resourceId := id + 1 })

end MemStorage

/-! The PostgreSQLStorage class: its SQL statements translated over
plain row lists (a table is its list of rows in physical order). -/

namespace PostgreSQLStorage

/-- PostgreSQLStorage.createUser: INSERT with role and level literals
member and beginner; nextId stands for the SERIAL sequence value. -/
def createUser (users : List User) (nextId : Nat) (ins : InsertUser)
    (now : Nat) : User × List User :=
  let user : User :=
    { id := nextId, username := ins.username, password := ins.password
      displayName := ins.displayName, email := ins.email
      avatar := ins.avatar, bio := ins.bio
      role := "member", level := "beginner", createdAt := now }
  (user, users ++ [user])

/-- PostgreSQLStorage.getLeaderboard: JOIN of users and
contest_results grouped by user, SUM(score) and
COUNT(DISTINCT event_id), ORDER BY score DESC.  Users without any
result do not appear (inner join).  topProblem (a random CASE) is
omitted. -/
def getLeaderboard (users : List User) (results : List ContestResult) :
    List LeaderboardRow :=
  sortByScoreDesc (users.filterMap (fun u =>
    let rs := results.filter (fun r => r.userId == u.id)
    if rs.isEmpty then none
    else some
      { id := u.id, username := u.username, displayName := u.displayName
        avatar := u.avatar, level := u.level
        score := (rs.map (fun r => r.score)).sum
        contestCount := ((rs.map (fun r => r.eventId)).dedup).length }))

/-- PostgreSQLStorage.markAsBestAnswer: a transaction that first
clears is_best_answer for the post, then sets it WHERE id = replyId
AND post_id = postId; zero updated rows raise and ROLLBACK, so the
none branch leaves the table as it was. -/
def markAsBestAnswer (replies : List ForumReply) (postId replyId : Nat) :
    Option (ForumReply × List ForumReply) :=
  let cleared := replies.map (fun r =>
    if r.postId == postId && r.isBestAnswer then { r with isBestAnswer := false } else r)
  let updated := cleared.map (fun r =>
    if r.id == replyId && r.postId == postId then { r with isBestAnswer := true } else r)
  match updated.find? (fun r => r.id == replyId && r.postId == postId) with
  | none => none
  | some r => some (r, updated)

/-- PostgreSQLStorage.deleteForumPost: DELETE FROM forum_posts with
the ON DELETE CASCADE of forum_replies.post_id. -/
def deleteForumPost (posts : List ForumPost) (replies : List ForumReply)
    (id : Nat) : Bool × List ForumPost × List ForumReply :=
  (posts.any (fun p => p.id == id),
   posts.filter (fun p => !(p.id == id)),
   replies.filter (fun r => !(r.postId == id)))

end PostgreSQLStorage

/-! Route handlers from registerRoutes.  A request carries the
authenticated user (none when req.isAuthenticated() is false) and an
already-parsed body; the result is the HTTP status and the next store
state.  Zod parse failures and NaN id params (both 400, no storage
call) are outside the modelled inputs. -/

namespace Routes

/-- POST /api/events: 401 when unauthenticated, otherwise createEvent
with createdBy overridden by the caller id.  No role check appears in
the handler. -/
def postEvents (s : MemState) (caller : Option User) (body : InsertEvent)
    (now : Nat) : Nat × MemState :=
  match caller with
  | none => (401, s)
  | some user => (201, (MemStorage.createEvent s { body with createdBy := user.id } now).2)

/-- POST /api/resources: 401 when unauthenticated, otherwise
createResource with userId overridden by the caller id.  No role check
appears in the handler. -/
def postResources (s : MemState) (caller : Option User) (body : InsertResource)
    (now : Nat) : Nat × MemState :=
  match caller with
  | none => (401, s)
  | some user => (201, (MemStorage.createResource s { body with userId := user.id } now).2)

/-- POST /api/events/:id/register: 401 unauthenticated, 404 missing
event, 400 when a registration for (event, caller) already exists,
otherwise 201 and a new registration row. -/
def postEventRegister (s : MemState) (caller : Option User) (eventId : Nat)
    (now : Nat) : Nat × MemState :=
  match caller with
  | none => (401, s)
  | some user =>
    match MemStorage.getEvent s eventId with
    | none => (404, s)
    | some _ =>
      match MemStorage.getEventRegistration s eventId user.id with
      | some _ => (400, s)
      | none =>
        (201, (MemStorage.createEventRegistration s
          { eventId := eventId, userId := user.id } now).2)

/-- POST /api/forum/reply/:id/best-answer: 401 unauthenticated, 404
missing reply or post, 403 when the caller is neither the post author
nor an admin, otherwise markAsBestAnswer on the reply's own post (the
catch turns a throw into 500, after the storage call already ran). -/
def postBestAnswer (s : MemState) (caller : Option User) (replyId : Nat) :
    Nat × MemState :=
  match caller with
  | none => (401, s)
  | some user =>
    match MemStorage.getForumReply s replyId with
    | none => (404, s)
    | some reply =>
      match MemStorage.getForumPost s reply.postId with
      | none => (404, s)
      | some post =>
        if post.userId != user.id && user.role != "admin" then (403, s)
        else
          let r := MemStorage.markAsBestAnswer s reply.postId replyId
          match r.1 with
          | some _ => (200, r.2)
          | none => (500, r.2)

end Routes

/-! Sequences of the storage operations named by the best-answer
invariant claim. -/

/-- One storage-layer forum operation (return values discarded). -/
inductive ForumOp where
  | createReply (r : InsertForumReply) (now : Nat)
  | updateReply (id : Nat) (patch : ForumReplyPatch) (now : Nat)
  | upvoteReply (id : Nat)
  | markBest (postId replyId : Nat)
  | deleteReply (id : Nat)
  | deletePost (id : Nat)
deriving Repr, DecidableEq

/-- State transition of one forum operation. -/
def applyForumOp (s : MemState) : ForumOp → MemState
  | .createReply r now => (MemStorage.createForumReply s r now).2
  | .updateReply id p now => (MemStorage.updateForumReply s id p now).2
  | .upvoteReply id => (MemStorage.upvoteForumReply s id).2
  | .markBest postId replyId => (MemStorage.markAsBestAnswer s postId replyId).2
  | .deleteReply id => (MemStorage.deleteForumReply s id).2
  | .deletePost id => (MemStorage.deleteForumPost s id).2

/-- Run a sequence of forum operations. -/
def applyForumOps (s : MemState) (ops : List ForumOp) : MemState :=
  ops.foldl applyForumOp s

/-- Number of best-answer replies a post has in a reply map. -/
def bestCount (replies : JsMap ForumReply) (postId : Nat) : Nat :=
  (replies.filter (fun e => e.2.postId == postId && e.2.isBestAnswer)).length

/-- The spec invariant: every post has at most one best answer. -/
def BestAnswerInv (s : MemState) : Prop :=
  ∀ P, bestCount s.forumReplies P ≤ 1

/-- Side conditions under which one forum operation respects the
best-answer discipline: updateForumReply payloads that touch neither
isBestAnswer nor postId, and markAsBestAnswer calls whose reply (when
it exists) belongs to the named post.  The other four operations are
unconditionally safe. -/
def SafeForumOp (s : MemState) : ForumOp → Prop
  | .updateReply _ p _ => p.isBestAnswer = none ∧ p.postId = none
  | .markBest postId replyId =>
    match mapGet s.forumReplies replyId with
    | some r => r.postId = postId
    | none => True
  | _ => True

/-- A trace whose every operation is safe in the state it runs in. -/
inductive SafeTrace : MemState → List ForumOp → Prop where
  | nil (s : MemState) : SafeTrace s []
  | cons (s : MemState) (op : ForumOp) (ops : List ForumOp) :
      SafeForumOp s op → SafeTrace (applyForumOp s op) ops →
      SafeTrace s (op :: ops)

/-- Well-formedness of the users map: every entry is stored under its
own id (true of every state MemStorage actually builds). -/
def UsersOK (users : JsMap User) : Prop :=
  ∀ e : Nat × User, e ∈ users → e.2.id = e.1

instance (users : JsMap User) : Decidable (UsersOK users) :=
  inferInstanceAs (Decidable (∀ e ∈ users, e.2.id = e.1))

/-- The contest results of one user, in table order. -/
def resultsFor (results : List ContestResult) (U : Nat) : List ContestResult :=
  results.filter (fun r => r.userId == U)

/-- Sum of a user's contest scores. -/
def scoreSum (results : List ContestResult) (U : Nat) : Int :=
  ((resultsFor results U).map (fun r => r.score)).sum

/-- At most one registration row per (eventId, userId) pair. -/
def AtMostOneRegPerPair (s : MemState) : Prop :=
  ∀ E U, ((mapValues s.eventRegistrations).filter
    (fun reg => reg.eventId == E && reg.userId == U)).length ≤ 1

/-! Concrete states used by counterexamples and witnesses. -/

/-- A plain member user with id 2. -/
def memberUser : User :=
  { id := 2, username := "bob", password := "pw", displayName := "Bob"
    email := "bob@dsac.com", avatar := none, bio := none
    role := "member", level := "beginner", createdAt := 0 }

/-- Two contest results of user 2, both for event 1. -/
def dupResultA : ContestResult :=
  { id := 1, eventId := 1, userId := 2, position := none, score := 80, createdAt := 0 }

/-- Second result of user 2 for the same event 1. -/
def dupResultB : ContestResult :=
  { id := 2, eventId := 1, userId := 2, position := none, score := 60, createdAt := 0 }

/-- Store with one member and two results for the same (user, event). -/
def dupResultState : MemState :=
  { MemState.empty with
      users := [(2, memberUser)]
      contestResults := [(1, dupResultA), (2, dupResultB)] }

/-- A reply on post 1 that is the current best answer. -/
def bestReply1 : ForumReply :=
  { id := 1, postId := 1, content := "use a heap", userId := 2, upvotes := 0
    isBestAnswer := true, createdAt := 0, updatedAt := 0 }

/-- Store where post 1 has best answer reply 1 and no reply 99 exists. -/
def bestAnswerState : MemState :=
  { MemState.empty with forumReplies := [(1, bestReply1)] }

/-- Insert record for a reply on post 1. -/
def sampleInsertReply : InsertForumReply :=
  { postId := 1, content := "try dp", userId := 2 }

/-- Patch that only sets isBestAnswer to true, as a caller of
updateForumReply may pass. -/
def bestAnswerPatch : ForumReplyPatch :=
  { isBestAnswer := some true }

/-- Create two replies on post 1 and patch both to best answer through
updateForumReply. -/
def twoBestOps : List ForumOp :=
  [ ForumOp.createReply sampleInsertReply 0
  , ForumOp.createReply sampleInsertReply 0
  , ForumOp.updateReply 1 bestAnswerPatch 0
  , ForumOp.updateReply 2 bestAnswerPatch 0 ]

/-- A valid event creation body. -/
def sampleInsertEvent : InsertEvent :=
  { title := "Weekly contest", description := "45 min sprint"
    eventType := "contest", date := 100, duration := 45
    location := "Lab 2", createdBy := 0 }

/-- A valid resource creation body. -/
def sampleInsertResource : InsertResource :=
  { title := "Graph notes", description := "BFS and DFS"
    content := some "text", resourceType := "guide", link := none, userId := 0 }

/-- Event number 1 as stored. -/
def sampleEvent : Event :=
  { id := 1, title := "Weekly contest", description := "45 min sprint"
    eventType := "contest", date := 100, duration := 45
    location := "Lab 2", createdBy := 1, createdAt := 0 }

/-- Registration of member 2 for event 1. -/
def sampleRegistration : EventRegistration :=
  { id := 1, eventId := 1, userId := 2, registeredAt := 0 }

/-- Store where member 2 is already registered for event 1. -/
def registeredState : MemState :=
  { MemState.empty with
      events := [(1, sampleEvent)]
      eventRegistrations := [(1, sampleRegistration)]
      eventRegistrationId := 2 }

/-- Replies A (id 1) and B (id 2), both on post 1, none best yet. -/
def replyA : ForumReply :=
  { id := 1, postId := 1, content := "sort first", userId := 2, upvotes := 0
    isBestAnswer := false, createdAt := 0, updatedAt := 0 }

/-- Reply B on post 1. -/
def replyB : ForumReply :=
  { id := 2, postId := 1, content := "binary search", userId := 3, upvotes := 0
    isBestAnswer := false, createdAt := 1, updatedAt := 1 }

/-- Store with replies A and B on post 1. -/
def twoReplyState : MemState :=
  { MemState.empty with forumReplies := [(1, replyA), (2, replyB)], forumReplyId := 3 }

/-- twoReplyState after reply A was marked best answer. -/
def markedAState : MemState :=
  (MemStorage.markAsBestAnswer twoReplyState 1 1).2

/-- Store with two posts and three replies, post 1 carrying replies 1
and 3, post 2 carrying reply 2. -/
def twoPostState : MemState :=
  { MemState.empty with
      forumPosts :=
        [ (1, { id := 1, title := "p1", content := "c1", userId := 2, views := 0
                tags := none, createdAt := 0, updatedAt := 0 })
        , (2, { id := 2, title := "p2", content := "c2", userId := 2, views := 0
                tags := none, createdAt := 0, updatedAt := 0 }) ]
      forumReplies :=
        [ (1, replyA)
        , (2, { replyB with postId := 2 })
        , (3, { id := 3, postId := 1, content := "meet in middle", userId := 3
                upvotes := 2, isBestAnswer := true, createdAt := 2, updatedAt := 2 }) ]
      forumPostId := 3, forumReplyId := 4 }

/-- A sample insert user record (no role or level field exists). -/
def sampleInsertUser : InsertUser :=
  { username := "carol", password := "pw2", displayName := "Carol"
    email := "carol@dsac.com", avatar := none, bio := some "rust fan" }

/-! Lemmas about the JsMap primitives. -/

theorem mapGet_nil (k : Nat) : mapGet ([] : JsMap α) k = none := rfl

theorem mapGet_cons (a : Nat) (v : α) (m : JsMap α) (k : Nat) :
    mapGet ((a, v) :: m) k = if a = k then some v else mapGet m k := by
  by_cases h : a = k
  · simp [mapGet, List.find?_cons_of_pos, h]
  · rw [mapGet, List.find?_cons_of_neg]
    · simp [mapGet, h]
    · simp [h]

theorem mapHas_cons (a : Nat) (v : α) (m : JsMap α) (k : Nat) :
    mapHas ((a, v) :: m) k = ((a == k) || mapHas m k) := by
  simp [mapHas]

theorem mapHas_eq_isSome_mapGet (m : JsMap α) (k : Nat) :
    mapHas m k = (mapGet m k).isSome := by
  induction m with
  | nil => rfl
  | cons e t ih =>
    obtain ⟨a, v⟩ := e
    rw [mapHas_cons, mapGet_cons, ih]
    by_cases h : a = k <;> simp [h]

theorem keys_nodup_cons (a : Nat) (v : α) (m : JsMap α)
    (h : KeysNodup ((a, v) :: m)) : (∀ e ∈ m, e.1 ≠ a) ∧ KeysNodup m := by
  rw [KeysNodup, List.map_cons, List.nodup_cons] at h
  refine ⟨fun e he hk => h.1 ?_, h.2⟩
  exact hk ▸ List.mem_map_of_mem (fun x => x.1) he

theorem entry_eq_of_keys_nodup (m : JsMap α) (hN : KeysNodup m)
    (e₁ e₂ : Nat × α) (h₁ : e₁ ∈ m) (h₂ : e₂ ∈ m) (hk : e₁.1 = e₂.1) :
    e₁ = e₂ := by
  induction m with
  | nil => cases h₁
  | cons e t ih =>
    obtain ⟨a, v⟩ := e
    obtain ⟨hfresh, hN'⟩ := keys_nodup_cons a v t hN
    rcases List.mem_cons.mp h₁ with rfl | h₁t
    · rcases List.mem_cons.mp h₂ with rfl | h₂t
      · rfl
      · exact absurd (hk.symm) (hfresh e₂ h₂t)
    · rcases List.mem_cons.mp h₂ with rfl | h₂t
      · exact absurd hk (hfresh e₁ h₁t)
      · exact ih hN' h₁t h₂t

theorem mem_of_mapGet_eq_some (m : JsMap α) (k : Nat) (v : α)
    (h : mapGet m k = some v) : (k, v) ∈ m := by
  induction m with
  | nil => cases h
  | cons e t ih =>
    obtain ⟨a, w⟩ := e
    rw [mapGet_cons] at h
    by_cases hak : a = k
    · simp [hak] at h
      exact hak ▸ h ▸ List.mem_cons_self _ _
    · simp [hak] at h
      exact List.mem_cons_of_mem _ (ih h)

theorem mapGet_eq_some_of_mem (m : JsMap α) (hN : KeysNodup m)
    (k : Nat) (v : α) (h : (k, v) ∈ m) : mapGet m k = some v := by
  induction m with
  | nil => cases h
  | cons e t ih =>
    obtain ⟨a, w⟩ := e
    obtain ⟨hfresh, hN'⟩ := keys_nodup_cons a w t hN
    rw [mapGet_cons]
    rcases List.mem_cons.mp h with heq | ht
    · obtain ⟨h1, h2⟩ := Prod.mk.injEq .. ▸ heq.symm
      simp [h1.symm, h2]
    · have hak : a ≠ k := fun hk => (hfresh (k, v) ht) (hk ▸ rfl)
      simp [hak, ih hN' ht]

theorem mapSet_nil (k : Nat) (v : α) : mapSet ([] : JsMap α) k v = [(k, v)] := rfl

/-- mapSet walks past a head entry with a different key. -/
theorem mapSet_cons_of_ne (a : Nat) (w : α) (t : JsMap α) (k : Nat) (v : α)
    (hak : a ≠ k) : mapSet ((a, w) :: t) k v = (a, w) :: mapSet t k v := by
  have hhead : (((a, w) : Nat × α).1 == k) = false := by simp [hak]
  by_cases hht : mapHas t k
  · have hh : mapHas ((a, w) :: t) k = true := by
      rw [mapHas_cons, hht, Bool.or_true]
    rw [mapSet, if_pos hh, List.map_cons, mapSet, if_pos hht]
    simp [hhead]
  · have hh : mapHas ((a, w) :: t) k = false := by
      rw [mapHas_cons, hhead]
      simpa using hht
    rw [mapSet, if_neg (by simp [hh]), mapSet, if_neg (by simpa using hht)]
    rfl

/-- mapSet replaces a head entry with the key in place, when no later
entry shares the key. -/
theorem mapSet_cons_self (w : α) (t : JsMap α) (k : Nat) (v : α)
    (hfresh : ∀ e ∈ t, e.1 ≠ k) : mapSet ((k, w) :: t) k v = (k, v) :: t := by
  have hh : mapHas ((k, w) :: t) k = true := by
    rw [mapHas_cons]
    simp
  rw [mapSet, if_pos hh, List.map_cons]
  have ht : t.map (fun e => if e.1 == k then ((k, v) : Nat × α) else e) = t := by
    have hc : ∀ e ∈ t, (if e.1 == k then ((k, v) : Nat × α) else e) = id e := by
      intro e he
      simp [hfresh e he]
    calc t.map (fun e => if e.1 == k then ((k, v) : Nat × α) else e)
        = t.map id := List.map_congr_left hc
      _ = t := List.map_id t
  rw [ht]
  simp

theorem mapGet_mapSet (m : JsMap α) (hN : KeysNodup m) (k u : Nat) (v : α) :
    mapGet (mapSet m k v) u = if u = k then some v else mapGet m u := by
  induction m with
  | nil =>
    rw [mapSet_nil, mapGet_cons, mapGet_nil]
    by_cases h : u = k
    · rw [if_pos h.symm, if_pos h]
    · rw [if_neg (fun hh : k = u => h hh.symm), if_neg h]
  | cons e t ih =>
    obtain ⟨a, w⟩ := e
    obtain ⟨hfresh, hN'⟩ := keys_nodup_cons a w t hN
    by_cases hak : a = k
    · subst hak
      rw [mapSet_cons_self w t a v (fun e he => hfresh e he), mapGet_cons, mapGet_cons]
      by_cases h : u = a
      · simp [h]
      · simp [h, Ne.symm h]
    · rw [mapSet_cons_of_ne a w t k v hak, mapGet_cons, mapGet_cons, ih hN']
      by_cases hau : a = u
      · have huk : u ≠ k := fun hh => hak (hau.trans hh)
        simp [hau, huk]
      · simp [hau]

/-- Every key of mapSet m k v is a key of m or is k itself. -/
theorem keys_mapSet_sub (m : JsMap α) (k : Nat) (v : α) (x : Nat)
    (hx : x ∈ (mapSet m k v).map (fun e => e.1)) :
    x ∈ m.map (fun e => e.1) ∨ x = k := by
  rw [mapSet] at hx
  by_cases hh : mapHas m k
  · rw [if_pos hh] at hx
    obtain ⟨e', he', hex⟩ := List.mem_map.mp hx
    obtain ⟨e, he, hfe⟩ := List.mem_map.mp he'
    by_cases hek : (e.1 == k) = true
    · right
      rw [if_pos hek] at hfe
      rw [← hfe] at hex
      exact hex.symm
    · left
      rw [if_neg hek] at hfe
      rw [← hfe] at hex
      rw [← hex]
      exact List.mem_map_of_mem (fun e => e.1) he
  · rw [if_neg hh, List.map_append] at hx
    rcases List.mem_append.mp hx with h | h
    · exact Or.inl h
    · right
      simpa using h

theorem keysNodup_mapSet (m : JsMap α) (hN : KeysNodup m) (k : Nat) (v : α) :
    KeysNodup (mapSet m k v) := by
  induction m with
  | nil =>
    rw [mapSet_nil, KeysNodup]
    simp
  | cons e t ih =>
    obtain ⟨a, w⟩ := e
    obtain ⟨hfresh, hN'⟩ := keys_nodup_cons a w t hN
    by_cases hak : a = k
    · subst hak
      rw [mapSet_cons_self w t a v (fun e he => hfresh e he)]
      rw [KeysNodup, List.map_cons, List.nodup_cons]
      constructor
      · intro hmem
        obtain ⟨e, he, hea⟩ := List.mem_map.mp hmem
        exact (hfresh e he) hea
      · exact hN'
    · rw [mapSet_cons_of_ne a w t k v hak]
      rw [KeysNodup, List.map_cons, List.nodup_cons]
      refine ⟨?_, ih hN'⟩
      intro hmem
      rcases keys_mapSet_sub t k v a hmem with h | h
      · obtain ⟨e, he, hea⟩ := List.mem_map.mp h
        exact (hfresh e he) hea
      · exact hak h

theorem mapGet_mapDelete (m : JsMap α) (k u : Nat) :
    mapGet (mapDelete m k) u = if u = k then none else mapGet m u := by
  induction m with
  | nil =>
    by_cases h : u = k
    · rw [if_pos h]; rfl
    · rw [if_neg h]; rfl
  | cons e t ih =>
    obtain ⟨a, v⟩ := e
    rw [mapDelete, List.filter_cons]
    rw [mapDelete] at ih
    by_cases hak : a = k
    · rw [if_neg (by simp [hak]), ih]
      by_cases h : u = k
      · simp [h]
      · have hau : a ≠ u := fun hh => h (hh.symm.trans hak)
        rw [if_neg h, if_neg h, mapGet_cons, if_neg hau]
    · rw [if_pos (by simp [hak]), mapGet_cons]
      by_cases hau : a = u
      · have huk : u ≠ k := fun hh => hak (hau.trans hh)
        rw [if_pos hau, if_neg huk, mapGet_cons, if_pos hau]
      · rw [if_neg hau, ih, mapGet_cons]
        by_cases huk : u = k
        · simp [huk]
        · rw [if_neg huk, if_neg huk, if_neg hau]

theorem keysNodup_mapDelete (m : JsMap α) (hN : KeysNodup m) (k : Nat) :
    KeysNodup (mapDelete m k) := by
  rw [KeysNodup]
  exact List.Nodup.sublist (List.Sublist.map (fun e => e.1) (List.filter_sublist m)) hN

/-! Counting lemmas used by the best-answer invariant. -/

theorem bestCount_eq_countP (m : JsMap ForumReply) (P : Nat) :
    bestCount m P =
      m.countP (fun e => e.2.postId == P && e.2.isBestAnswer) := by
  rw [bestCount, List.countP_eq_length_filter]

theorem mapSet_append_of_not_has (m : JsMap α) (k : Nat) (v : α)
    (h : mapHas m k = false) : mapSet m k v = m ++ [(k, v)] := by
  rw [mapSet, if_neg]
  simp [h]

theorem countP_map_le (f : β → β) (q : β → Bool) (m : List β)
    (h : ∀ e ∈ m, q (f e) = true → q e = true) :
    List.countP q (m.map f) ≤ List.countP q m := by
  induction m with
  | nil => simp
  | cons e t ih =>
    rw [List.map_cons, List.countP_cons, List.countP_cons]
    have ht := ih (fun e he => h e (List.mem_cons_of_mem _ he))
    by_cases hq : q (f e) = true
    · rw [hq, h e (List.mem_cons_self _ _) hq]
      exact Nat.add_le_add ht (le_refl 1)
    · rw [Bool.not_eq_true] at hq
      rw [hq]
      have hz : (if (false : Bool) = true then 1 else 0) = 0 := by simp
      rw [hz, Nat.add_zero]
      exact le_trans ht (Nat.le_add_right _ _)

theorem countP_map_congr (f : β → β) (q : β → Bool) (m : List β)
    (h : ∀ e ∈ m, q (f e) = q e) :
    List.countP q (m.map f) = List.countP q m := by
  induction m with
  | nil => rfl
  | cons e t ih =>
    rw [List.map_cons, List.countP_cons, List.countP_cons,
        ih (fun e he => h e (List.mem_cons_of_mem _ he)), h e (List.mem_cons_self _ _)]

theorem countP_mapSet_fresh (q : Nat × α → Bool) (m : JsMap α) (k : Nat) (v : α)
    (h : mapHas m k = false) :
    List.countP q (mapSet m k v) =
      List.countP q m + (if q (k, v) then 1 else 0) := by
  rw [mapSet_append_of_not_has m k v h, List.countP_append]
  simp [List.countP_cons]

/-- Replacing the entry of a present key with a value the predicate
sees the same way leaves the count unchanged. -/
theorem countP_mapSet_eq (q : Nat × α → Bool) (m : JsMap α)
    (hN : KeysNodup m) (k : Nat) (w v : α)
    (hget : mapGet m k = some w) (hq : q (k, v) = q (k, w)) :
    List.countP q (mapSet m k v) = List.countP q m := by
  induction m with
  | nil => cases hget
  | cons e t ih =>
    obtain ⟨a, x⟩ := e
    obtain ⟨hfresh, hN'⟩ := keys_nodup_cons a x t hN
    rw [mapGet_cons] at hget
    by_cases hak : a = k
    · subst hak
      rw [if_pos rfl] at hget
      have hw : x = w := by injection hget
      subst hw
      rw [mapSet_cons_self x t a v (fun e he => hfresh e he),
          List.countP_cons, List.countP_cons, hq]
    · rw [if_neg hak] at hget
      rw [mapSet_cons_of_ne a x t k v hak, List.countP_cons, List.countP_cons,
          ih hN' hget]

/-- Setting one entry into a map where the predicate counts zero gives
a count of at most one. -/
theorem countP_mapSet_le_one (q : Nat × α → Bool) (m : JsMap α)
    (hN : KeysNodup m) (k : Nat) (v : α)
    (hzero : List.countP q m = 0) :
    List.countP q (mapSet m k v) ≤ 1 := by
  induction m with
  | nil =>
    rw [mapSet_nil]
    simp [List.countP_cons]
    split <;> simp
  | cons e t ih =>
    obtain ⟨a, x⟩ := e
    obtain ⟨hfresh, hN'⟩ := keys_nodup_cons a x t hN
    rw [List.countP_cons] at hzero
    have hzt : List.countP q t = 0 := by omega
    have hze : (if q (a, x) then 1 else 0) = 0 := by omega
    by_cases hak : a = k
    · subst hak
      rw [mapSet_cons_self x t a v (fun e he => hfresh e he), List.countP_cons, hzt]
      split <;> simp
    · rw [mapSet_cons_of_ne a x t k v hak, List.countP_cons, hze, Nat.add_zero]
      exact ih hN' hzt

/-! Lemmas about the clearing loop of markAsBestAnswer. -/

theorem MemStorage.clearBestAnswers_eq_map (m : JsMap ForumReply) (P : Nat) :
    MemStorage.clearBestAnswers m P = m.map (fun e => (e.1, MemStorage.clearReply P e.2)) := by
  rw [MemStorage.clearBestAnswers]
  apply List.map_congr_left
  intro e _
  rw [MemStorage.clearReply]
  by_cases h : (e.2.postId == P && e.2.isBestAnswer) = true
  · rw [if_pos h, if_pos h]
  · rw [if_neg h, if_neg h]

theorem mapGet_map_value (g : α → α) (m : JsMap α) (k : Nat) :
    mapGet (m.map (fun e => (e.1, g e.2))) k = (mapGet m k).map g := by
  induction m with
  | nil => rfl
  | cons e t ih =>
    obtain ⟨a, v⟩ := e
    rw [List.map_cons]
    rw [mapGet_cons, mapGet_cons]
    by_cases h : a = k
    · rw [if_pos h, if_pos h]
      rfl
    · rw [if_neg h, if_neg h, ih]

theorem mapGet_clearBestAnswers (m : JsMap ForumReply) (P k : Nat) :
    mapGet (MemStorage.clearBestAnswers m P) k = (mapGet m k).map (MemStorage.clearReply P) := by
  rw [MemStorage.clearBestAnswers_eq_map, mapGet_map_value]

theorem keysNodup_clearBestAnswers (m : JsMap ForumReply) (hN : KeysNodup m)
    (P : Nat) : KeysNodup (MemStorage.clearBestAnswers m P) := by
  rw [MemStorage.clearBestAnswers_eq_map, KeysNodup, List.map_map]
  exact hN

theorem MemStorage.clearReply_postId (P : Nat) (r : ForumReply) :
    (MemStorage.clearReply P r).postId = r.postId := by
  rw [MemStorage.clearReply]
  split <;> rfl

theorem bestCount_clearBestAnswers_self (m : JsMap ForumReply) (P : Nat) :
    bestCount (MemStorage.clearBestAnswers m P) P = 0 := by
  rw [bestCount_eq_countP, MemStorage.clearBestAnswers_eq_map]
  rw [List.countP_eq_zero]
  intro e he
  obtain ⟨e₀, _, hfe⟩ := List.mem_map.mp he
  rw [← hfe]
  show ¬(((MemStorage.clearReply P e₀.2).postId == P && (MemStorage.clearReply P e₀.2).isBestAnswer) = true)
  rw [MemStorage.clearReply]
  by_cases h : (e₀.2.postId == P && e₀.2.isBestAnswer) = true
  · rw [if_pos h]
    simp
  · rw [if_neg h]
    exact fun hc => h hc

theorem bestCount_clearBestAnswers_other (m : JsMap ForumReply) (P Q : Nat)
    (hPQ : Q ≠ P) : bestCount (MemStorage.clearBestAnswers m P) Q = bestCount m Q := by
  rw [bestCount_eq_countP, bestCount_eq_countP, MemStorage.clearBestAnswers_eq_map]
  apply countP_map_congr
  intro e _
  show ((MemStorage.clearReply P e.2).postId == Q && (MemStorage.clearReply P e.2).isBestAnswer)
      = (e.2.postId == Q && e.2.isBestAnswer)
  rw [MemStorage.clearReply]
  by_cases h : (e.2.postId == P && e.2.isBestAnswer) = true
  · rw [if_pos h]
    obtain ⟨h1, _⟩ := Bool.and_eq_true_iff.mp h
    have hP : e.2.postId = P := by simpa using h1
    show (e.2.postId == Q && false) = (e.2.postId == Q && e.2.isBestAnswer)
    have hQ : (e.2.postId == Q) = false := by
      rw [hP]
      exact beq_eq_false_iff_ne.mpr (fun hh => hPQ hh.symm)
    rw [hQ]
    simp
  · rw [if_neg h]

/-! Preservation of the best-answer invariant, one operation at a time. -/

theorem bestAnswerInv_step (s : MemState) (op : ForumOp)
    (hN : KeysNodup s.forumReplies) (hInv : BestAnswerInv s)
    (hS : SafeForumOp s op) :
    KeysNodup (applyForumOp s op).forumReplies ∧
      BestAnswerInv (applyForumOp s op) := by
  cases op with
  | createReply r now =>
    constructor
    · exact keysNodup_mapSet _ hN _ _
    · intro P
      show bestCount (mapSet s.forumReplies s.forumReplyId _) P ≤ 1
      rw [bestCount_eq_countP]
      calc List.countP _ (mapSet s.forumReplies s.forumReplyId _)
          ≤ List.countP _ s.forumReplies := by
            by_cases hh : mapHas s.forumReplies s.forumReplyId
            · rw [mapSet, if_pos hh]
              apply countP_map_le
              intro e _ hq
              by_cases hek : (e.1 == s.forumReplyId) = true
              · rw [if_pos hek] at hq
                simp at hq
              · rw [if_neg hek] at hq
                exact hq
            · rw [countP_mapSet_fresh _ _ _ _ (by simpa using hh)]
              simp
        _ ≤ 1 := by rw [← bestCount_eq_countP]; exact hInv P
  | updateReply id p now =>
    obtain ⟨hbest, hpost⟩ := hS
    cases hget : mapGet s.forumReplies id with
    | none =>
      have hstate : applyForumOp s (ForumOp.updateReply id p now) = s := by
        simp only [applyForumOp, MemStorage.updateForumReply, hget]
      rw [hstate]
      exact ⟨hN, hInv⟩
    | some reply =>
      have hstate : (applyForumOp s (ForumOp.updateReply id p now)).forumReplies =
          mapSet s.forumReplies id (MemStorage.applyReplyPatch reply p now) := by
        simp only [applyForumOp, MemStorage.updateForumReply, hget]
      constructor
      · rw [hstate]
        exact keysNodup_mapSet _ hN _ _
      · intro P
        show bestCount (applyForumOp s (ForumOp.updateReply id p now)).forumReplies P ≤ 1
        rw [hstate, bestCount_eq_countP, countP_mapSet_eq _ _ hN id reply _ hget]
        · rw [← bestCount_eq_countP]
          exact hInv P
        · show ((MemStorage.applyReplyPatch reply p now).postId == P &&
              (MemStorage.applyReplyPatch reply p now).isBestAnswer)
            = (reply.postId == P && reply.isBestAnswer)
          rw [MemStorage.applyReplyPatch]
          rw [hbest, hpost]
          rfl
  | upvoteReply id =>
    cases hget : mapGet s.forumReplies id with
    | none =>
      have hstate : applyForumOp s (ForumOp.upvoteReply id) = s := by
        simp only [applyForumOp, MemStorage.upvoteForumReply, hget]
      rw [hstate]
      exact ⟨hN, hInv⟩
    | some reply =>
      have hstate : (applyForumOp s (ForumOp.upvoteReply id)).forumReplies =
          mapSet s.forumReplies id { reply with upvotes := reply.upvotes + 1 } := by
        simp only [applyForumOp, MemStorage.upvoteForumReply, hget]
      constructor
      · rw [hstate]
        exact keysNodup_mapSet _ hN _ _
      · intro P
        show bestCount (applyForumOp s (ForumOp.upvoteReply id)).forumReplies P ≤ 1
        have hq : (({ reply with upvotes := reply.upvotes + 1 } : ForumReply).postId == P
              && ({ reply with upvotes := reply.upvotes + 1 } : ForumReply).isBestAnswer)
            = (reply.postId == P && reply.isBestAnswer) := rfl
        rw [hstate, bestCount_eq_countP,
            countP_mapSet_eq _ _ hN id reply
              { reply with upvotes := reply.upvotes + 1 } hget hq]
        rw [← bestCount_eq_countP]
        exact hInv P
  | markBest postId replyId =>
    have hNc : KeysNodup (MemStorage.clearBestAnswers s.forumReplies postId) :=
      keysNodup_clearBestAnswers _ hN _
    cases hget : mapGet (MemStorage.clearBestAnswers s.forumReplies postId) replyId with
    | none =>
      have hstate : (applyForumOp s (ForumOp.markBest postId replyId)).forumReplies =
          MemStorage.clearBestAnswers s.forumReplies postId := by
        simp only [applyForumOp, MemStorage.markAsBestAnswer, hget]
      refine ⟨hstate ▸ hNc, fun P => ?_⟩
      show bestCount (applyForumOp s (ForumOp.markBest postId replyId)).forumReplies P ≤ 1
      rw [hstate]
      by_cases hP : P = postId
      · subst hP
        rw [bestCount_clearBestAnswers_self]
        exact Nat.zero_le 1
      · rw [bestCount_clearBestAnswers_other _ _ _ hP]
        exact hInv P
    | some reply =>
      have hstate : (applyForumOp s (ForumOp.markBest postId replyId)).forumReplies =
          mapSet (MemStorage.clearBestAnswers s.forumReplies postId) replyId
            { reply with isBestAnswer := true } := by
        simp only [applyForumOp, MemStorage.markAsBestAnswer, hget]
      have hget₀ : ∃ r₀, mapGet s.forumReplies replyId = some r₀ ∧
          reply = MemStorage.clearReply postId r₀ := by
        rw [mapGet_clearBestAnswers] at hget
        cases hg : mapGet s.forumReplies replyId with
        | none => rw [hg] at hget; cases hget
        | some r₀ =>
          rw [hg] at hget
          refine ⟨r₀, rfl, ?_⟩
          have hx := hget.symm
          injection hx
      obtain ⟨r₀, hg₀, hrc⟩ := hget₀
      have hpost : reply.postId = postId := by
        rw [hrc, MemStorage.clearReply_postId]
        show r₀.postId = postId
        rw [SafeForumOp] at hS
        rw [hg₀] at hS
        exact hS
      constructor
      · rw [hstate]
        exact keysNodup_mapSet _ hNc _ _
      · intro P
        show bestCount (applyForumOp s (ForumOp.markBest postId replyId)).forumReplies P ≤ 1
        rw [hstate]
        by_cases hP : P = postId
        · subst hP
          rw [bestCount_eq_countP]
          apply countP_mapSet_le_one _ _ hNc
          rw [← bestCount_eq_countP]
          exact bestCount_clearBestAnswers_self _ _
        · rw [bestCount_eq_countP]
          rw [countP_mapSet_eq _ _ hNc replyId reply _ hget]
          · rw [← bestCount_eq_countP, bestCount_clearBestAnswers_other _ _ _ hP]
            exact hInv P
          · have h1 : ({ reply with isBestAnswer := true } : ForumReply).postId
                = postId := hpost
            show (({ reply with isBestAnswer := true } : ForumReply).postId == P &&
                ({ reply with isBestAnswer := true } : ForumReply).isBestAnswer)
              = (reply.postId == P && reply.isBestAnswer)
            have h2 : (({ reply with isBestAnswer := true } : ForumReply).postId == P)
                = false := by
              rw [h1]
              exact beq_eq_false_iff_ne.mpr (fun hh => hP hh.symm)
            rw [h2]
            simp
  | deleteReply id =>
    constructor
    · exact keysNodup_mapDelete _ hN _
    · intro P
      show bestCount (mapDelete s.forumReplies id) P ≤ 1
      calc bestCount (mapDelete s.forumReplies id) P
          ≤ bestCount s.forumReplies P := by
            rw [bestCount, bestCount]
            exact List.Sublist.length_le
              (List.Sublist.filter _ (List.filter_sublist s.forumReplies))
        _ ≤ 1 := hInv P
  | deletePost id =>
    have hsub : ∀ (l : JsMap ForumReply) (acc : JsMap ForumReply),
        List.Sublist
          (l.foldl (fun acc e => if e.2.postId == id then mapDelete acc e.1 else acc) acc)
          acc := by
      intro l
      induction l with
      | nil => intro acc; exact List.Sublist.refl acc
      | cons e t ih =>
        intro acc
        rw [List.foldl_cons]
        by_cases h : (e.2.postId == id) = true
        · rw [if_pos h]
          exact List.Sublist.trans (ih _) (List.filter_sublist acc)
        · rw [if_neg h]
          exact ih acc
    have hsub' := hsub s.forumReplies s.forumReplies
    constructor
    · show KeysNodup (MemStorage.deleteForumPost s id).2.forumReplies
      rw [MemStorage.deleteForumPost]
      exact List.Nodup.sublist (List.Sublist.map _ hsub') hN
    · intro P
      show bestCount (MemStorage.deleteForumPost s id).2.forumReplies P ≤ 1
      rw [MemStorage.deleteForumPost]
      calc bestCount _ P
          ≤ bestCount s.forumReplies P := by
            rw [bestCount, bestCount]
            exact List.Sublist.length_le (List.Sublist.filter _ hsub')
        _ ≤ 1 := hInv P

/-- Safe traces preserve well-formedness and the invariant. -/
theorem bestAnswerInv_trace (s : MemState) (ops : List ForumOp)
    (hN : KeysNodup s.forumReplies) (hInv : BestAnswerInv s)
    (hT : SafeTrace s ops) :
    BestAnswerInv (applyForumOps s ops) := by
  induction hT with
  | nil s => exact hInv
  | cons s op ops hS _ ih =>
    obtain ⟨hN', hInv'⟩ := bestAnswerInv_step s op hN hInv hS
    exact ih hN' hInv'

/-! Lemmas about the leaderboard aggregation. -/

theorem scores_foldl_nodup (rs : List ContestResult)
    (acc : JsMap MemStorage.ScoreData) (hN : KeysNodup acc) :
    KeysNodup (rs.foldl MemStorage.scoreStep acc) := by
  induction rs generalizing acc with
  | nil => exact hN
  | cons r rs ih =>
    rw [List.foldl_cons]
    exact ih _ (keysNodup_mapSet _ hN _ _)

theorem resultsFor_nil (U : Nat) : resultsFor [] U = [] := rfl

theorem resultsFor_cons_self (r : ContestResult) (rs : List ContestResult)
    (hU : r.userId = U) : resultsFor (r :: rs) U = r :: resultsFor rs U := by
  rw [resultsFor, List.filter_cons, if_pos (by simp [hU]), resultsFor]

theorem resultsFor_cons_other (r : ContestResult) (rs : List ContestResult)
    (hU : r.userId ≠ U) : resultsFor (r :: rs) U = resultsFor rs U := by
  rw [resultsFor, List.filter_cons, if_neg (by simp [hU]), resultsFor]

/-- Running the gathering loop over rs on an accumulator that already
holds an entry for U adds the sum and count of U's rows in rs. -/
theorem scores_foldl_get_some (rs : List ContestResult)
    (acc : JsMap MemStorage.ScoreData) (U : Nat) (d : MemStorage.ScoreData)
    (hN : KeysNodup acc) (h : mapGet acc U = some d) :
    mapGet (rs.foldl MemStorage.scoreStep acc) U =
      some { userId := d.userId
             totalScore := d.totalScore + ((resultsFor rs U).map (fun r => r.score)).sum
             contestCount := d.contestCount + (resultsFor rs U).length } := by
  induction rs generalizing acc d with
  | nil =>
    rw [List.foldl_nil, h, resultsFor_nil]
    simp
  | cons r rs ih =>
    rw [List.foldl_cons]
    by_cases hU : r.userId = U
    · have hstep : mapGet (MemStorage.scoreStep acc r) U =
          some { userId := d.userId
                 totalScore := d.totalScore + r.score
                 contestCount := d.contestCount + 1 } := by
        rw [MemStorage.scoreStep, hU, mapGet_mapSet _ hN, if_pos rfl, h]
        rfl
      rw [ih (MemStorage.scoreStep acc r) _ (keysNodup_mapSet _ hN _ _) hstep,
          resultsFor_cons_self r rs hU]
      simp only [List.map_cons, List.sum_cons, List.length_cons,
        Option.some.injEq, MemStorage.ScoreData.mk.injEq, true_and]
      constructor
      · ring
      · omega
    · have hstep : mapGet (MemStorage.scoreStep acc r) U = some d := by
        rw [MemStorage.scoreStep, mapGet_mapSet _ hN, if_neg (fun hh => hU hh.symm), h]
      rw [ih (MemStorage.scoreStep acc r) _ (keysNodup_mapSet _ hN _ _) hstep,
          resultsFor_cons_other r rs hU]

/-- A user with no rows in rs and no accumulator entry stays absent. -/
theorem scores_foldl_get_none (rs : List ContestResult)
    (acc : JsMap MemStorage.ScoreData) (U : Nat)
    (hN : KeysNodup acc) (h : mapGet acc U = none)
    (hno : resultsFor rs U = []) :
    mapGet (rs.foldl MemStorage.scoreStep acc) U = none := by
  induction rs generalizing acc with
  | nil => exact h
  | cons r rs ih =>
    by_cases hU : r.userId = U
    · rw [resultsFor_cons_self r rs hU] at hno
      cases hno
    · rw [resultsFor_cons_other r rs hU] at hno
      rw [List.foldl_cons]
      refine ih _ (keysNodup_mapSet _ hN _ _) ?_ hno
      rw [MemStorage.scoreStep, mapGet_mapSet _ hN, if_neg (fun hh => hU hh.symm), h]

/-- A user with at least one row in rs and no prior accumulator entry
ends with exactly the sum and the row count. -/
theorem scores_foldl_get_occur (rs : List ContestResult)
    (acc : JsMap MemStorage.ScoreData) (U : Nat)
    (hN : KeysNodup acc) (h : mapGet acc U = none)
    (hocc : resultsFor rs U ≠ []) :
    mapGet (rs.foldl MemStorage.scoreStep acc) U =
      some { userId := U
             totalScore := ((resultsFor rs U).map (fun r => r.score)).sum
             contestCount := (resultsFor rs U).length } := by
  induction rs generalizing acc with
  | nil =>
    rw [resultsFor_nil] at hocc
    cases hocc rfl
  | cons r rs ih =>
    rw [List.foldl_cons]
    by_cases hU : r.userId = U
    · have hstep : mapGet (MemStorage.scoreStep acc r) U =
          some { userId := r.userId
                 totalScore := 0 + r.score
                 contestCount := 0 + 1 } := by
        rw [MemStorage.scoreStep, hU, mapGet_mapSet _ hN, if_pos rfl, h]
        rfl
      have hNstep : KeysNodup (MemStorage.scoreStep acc r) :=
        keysNodup_mapSet _ hN _ _
      rw [scores_foldl_get_some rs (MemStorage.scoreStep acc r) U _ hNstep hstep,
          resultsFor_cons_self r rs hU]
      simp only [List.map_cons, List.sum_cons, List.length_cons,
        Option.some.injEq, MemStorage.ScoreData.mk.injEq]
      refine ⟨hU, by ring, by omega⟩
    · rw [resultsFor_cons_other r rs hU] at hocc
      rw [resultsFor_cons_other r rs hU]
      refine ih _ (keysNodup_mapSet _ hN _ _) ?_ hocc
      rw [MemStorage.scoreStep, mapGet_mapSet _ hN, if_neg (fun hh => hU hh.symm), h]

/-! The descending sort is a permutation. -/

theorem insertByScore_perm (x : LeaderboardRow) (l : List LeaderboardRow) :
    List.Perm (insertByScore x l) (x :: l) := by
  induction l with
  | nil => exact List.Perm.refl _
  | cons y ys ih =>
    rw [insertByScore]
    by_cases h : y.score ≤ x.score
    · rw [if_pos h]
    · rw [if_neg h]
      exact List.Perm.trans (List.Perm.cons y ih) (List.Perm.swap x y ys)

theorem sortByScoreDesc_perm (l : List LeaderboardRow) :
    List.Perm (sortByScoreDesc l) l := by
  induction l with
  | nil => exact List.Perm.refl _
  | cons x xs ih =>
    rw [sortByScoreDesc, List.foldr_cons]
    exact List.Perm.trans (insertByScore_perm x _) (List.Perm.cons x ih)

/-! Pushing the per-user filter through the row construction. -/

theorem filter_filterMap_key (key : β → Nat) (f : β → Option LeaderboardRow)
    (U : Nat) (m : List β)
    (hid : ∀ b r, f b = some r → r.id = key b) :
    (m.filterMap f).filter (fun row => row.id == U)
      = (m.filter (fun b => key b == U)).filterMap f := by
  induction m with
  | nil => rfl
  | cons b t ih =>
    rw [List.filterMap_cons, List.filter_cons]
    cases hf : f b with
    | none =>
      rw [ih]
      by_cases hb : (key b == U) = true
      · rw [if_pos hb, List.filterMap_cons, hf]
      · rw [if_neg hb]
    | some row =>
      have hrow : row.id = key b := hid b row hf
      rw [List.filter_cons]
      by_cases hb : (key b == U) = true
      · rw [if_pos hb, if_pos (by rw [hrow]; exact hb), List.filterMap_cons, hf, ih]
      · rw [if_neg hb, if_neg (by rw [hrow]; exact hb), ih]

theorem filter_key_singleton (m : JsMap α) (hN : KeysNodup m) (U : Nat) (d : α)
    (h : mapGet m U = some d) :
    m.filter (fun e => e.1 == U) = [(U, d)] := by
  induction m with
  | nil => cases h
  | cons e t ih =>
    obtain ⟨a, x⟩ := e
    obtain ⟨hfresh, hN'⟩ := keys_nodup_cons a x t hN
    rw [mapGet_cons] at h
    rw [List.filter_cons]
    by_cases hak : a = U
    · subst hak
      rw [if_pos rfl] at h
      have hx : x = d := by injection h
      subst hx
      rw [if_pos (by simp)]
      have ht : t.filter (fun e => e.1 == a) = [] := by
        rw [List.filter_eq_nil_iff]
        intro e he
        simp [hfresh e he]
      rw [ht]
    · rw [if_neg hak] at h
      rw [if_neg (by simp [hak]), ih hN' h]

/-- The filtered mem leaderboard of a user with results is one exact
row carrying the score sum and the raw row count. -/
theorem memLeaderboard_row (s : MemState) (U : Nat) (u : User)
    (hOK : UsersOK s.users) (hu : mapGet s.users U = some u)
    (hres : resultsFor (mapValues s.contestResults) U ≠ []) :
    (MemStorage.getLeaderboard s).filter (fun row => row.id == U) =
      [{ id := U, username := u.username, displayName := u.displayName
         avatar := u.avatar, level := u.level
         score := scoreSum (mapValues s.contestResults) U
         contestCount := (resultsFor (mapValues s.contestResults) U).length }] := by
  have husers : u.id = U := hOK (U, u) (mem_of_mapGet_eq_some _ _ _ hu)
  have hNs : KeysNodup (MemStorage.userScores s) :=
    scores_foldl_nodup _ [] (by rw [KeysNodup]; simp)
  have hd : mapGet (MemStorage.userScores s) U =
      some { userId := U
             totalScore := ((resultsFor (mapValues s.contestResults) U).map
               (fun r => r.score)).sum
             contestCount := (resultsFor (mapValues s.contestResults) U).length } := by
    rw [MemStorage.userScores]
    exact scores_foldl_get_occur _ [] U (by rw [KeysNodup]; simp) rfl hres
  have hperm : List.Perm
      ((MemStorage.getLeaderboard s).filter (fun row => row.id == U))
      (((MemStorage.userScores s).filterMap (fun e =>
        (mapGet s.users e.1).map (fun user =>
          { id := user.id, username := user.username, displayName := user.displayName
            avatar := user.avatar, level := user.level
            score := e.2.totalScore, contestCount := e.2.contestCount }))).filter
        (fun row => row.id == U)) := by
    rw [MemStorage.getLeaderboard]
    exact List.Perm.filter _ (sortByScoreDesc_perm _)
  have hid : ∀ (e : Nat × MemStorage.ScoreData) (r : LeaderboardRow),
      (mapGet s.users e.1).map (fun user =>
        ({ id := user.id, username := user.username, displayName := user.displayName
           avatar := user.avatar, level := user.level
           score := e.2.totalScore, contestCount := e.2.contestCount } :
          LeaderboardRow)) = some r → r.id = e.1 := by
    intro e r hfe
    cases hg : mapGet s.users e.1 with
    | none => rw [hg] at hfe; cases hfe
    | some user =>
      rw [hg] at hfe
      have hru : (⟨user.id, user.username, user.displayName, user.avatar,
          user.level, e.2.totalScore, e.2.contestCount⟩ : LeaderboardRow) = r := by
        injection hfe
      rw [← hru]
      show user.id = e.1
      exact hOK (e.1, user) (mem_of_mapGet_eq_some _ _ _ hg)
  rw [filter_filterMap_key (fun e => e.1) _ U _ hid,
      filter_key_singleton _ hNs U _ hd] at hperm
  simp only [List.filterMap_cons, List.filterMap_nil, hu, Option.map_some'] at hperm
  rw [List.perm_singleton.mp hperm, scoreSum, husers]

/-- The filtered relational leaderboard of a user with results is one
exact row carrying the score sum and the distinct event count. -/
theorem pgLeaderboard_row (s : MemState) (U : Nat) (u : User)
    (hOK : UsersOK s.users) (hN : KeysNodup s.users)
    (hu : mapGet s.users U = some u)
    (hres : resultsFor (mapValues s.contestResults) U ≠ []) :
    (PostgreSQLStorage.getLeaderboard (mapValues s.users)
        (mapValues s.contestResults)).filter (fun row => row.id == U) =
      [{ id := u.id, username := u.username, displayName := u.displayName
         avatar := u.avatar, level := u.level
         score := scoreSum (mapValues s.contestResults) U
         contestCount := ((resultsFor (mapValues s.contestResults) U).map
           (fun r => r.eventId)).dedup.length }] := by
  have husers : u.id = U := hOK (U, u) (mem_of_mapGet_eq_some _ _ _ hu)
  have hperm : List.Perm
      ((PostgreSQLStorage.getLeaderboard (mapValues s.users)
          (mapValues s.contestResults)).filter (fun row => row.id == U))
      (((mapValues s.users).filterMap (fun u =>
        let rs := (mapValues s.contestResults).filter (fun r => r.userId == u.id)
        if rs.isEmpty then none
        else some
          { id := u.id, username := u.username, displayName := u.displayName
            avatar := u.avatar, level := u.level
            score := (rs.map (fun r => r.score)).sum
            contestCount := ((rs.map (fun r => r.eventId)).dedup).length })).filter
        (fun row => row.id == U)) := by
    rw [PostgreSQLStorage.getLeaderboard]
    exact List.Perm.filter _ (sortByScoreDesc_perm _)
  have hid : ∀ (v : User) (r : LeaderboardRow),
      (let rs := (mapValues s.contestResults).filter (fun r => r.userId == v.id)
       if rs.isEmpty then none
       else some
        ({ id := v.id, username := v.username, displayName := v.displayName
           avatar := v.avatar, level := v.level
           score := (rs.map (fun r => r.score)).sum
           contestCount := ((rs.map (fun r => r.eventId)).dedup).length } :
          LeaderboardRow)) = some r → r.id = v.id := by
    intro v r hfe
    by_cases hemp : ((mapValues s.contestResults).filter
        (fun r => r.userId == v.id)).isEmpty = true
    · rw [if_pos hemp] at hfe
      cases hfe
    · rw [if_neg hemp] at hfe
      have hr := hfe.symm
      injection hr with hr
      rw [hr]
  have hvals : (mapValues s.users).filter (fun v => v.id == U) = [u] := by
    rw [mapValues, List.filter_map]
    have hcong : s.users.filter ((fun v => v.id == U) ∘ (fun e => e.2))
        = s.users.filter (fun e => e.1 == U) := by
      apply List.filter_congr
      intro e he
      show (e.2.id == U) = (e.1 == U)
      rw [hOK e he]
    rw [hcong, filter_key_singleton _ hN U _ hu]
    rfl
  rw [filter_filterMap_key (fun v => v.id) _ U _ hid, hvals] at hperm
  have hne : ((mapValues s.contestResults).filter
      (fun r => r.userId == u.id)).isEmpty = false := by
    rw [husers]
    cases hcase : resultsFor (mapValues s.contestResults) U with
    | nil => cases hres hcase
    | cons a t =>
      show (resultsFor (mapValues s.contestResults) U).isEmpty = false
      rw [hcase]
      rfl
  simp only [List.filterMap_cons, List.filterMap_nil, hne] at hperm
  rw [List.perm_singleton.mp hperm]
  rw [scoreSum, husers]
  rfl

/-! Helpers for the best-answer transition and the cascade delete. -/

theorem mapSet_eq_map_of_has (m : JsMap α) (k : Nat) (v : α)
    (h : mapHas m k = true) :
    mapSet m k v = m.map (fun e => if e.1 == k then (k, v) else e) := by
  rw [mapSet, if_pos h]

/-- After the reset loop, no reply of the post is still a best answer. -/
theorem clearBestAnswers_no_best (m : JsMap ForumReply) (P : Nat) :
    ∀ e ∈ MemStorage.clearBestAnswers m P, e.2.postId = P →
      e.2.isBestAnswer = false := by
  intro e he hpost
  rw [MemStorage.clearBestAnswers_eq_map] at he
  obtain ⟨e₀, _, hfe⟩ := List.mem_map.mp he
  rw [← hfe] at hpost
  rw [← hfe]
  show (MemStorage.clearReply P e₀.2).isBestAnswer = false
  rw [MemStorage.clearReply_postId] at hpost
  rw [MemStorage.clearReply]
  by_cases hc : (e₀.2.postId == P && e₀.2.isBestAnswer) = true
  · rw [if_pos hc]
  · rw [if_neg hc]
    cases hb : e₀.2.isBestAnswer with
    | false => rfl
    | true =>
      exact absurd (by rw [hb, hpost]; simp) hc

/-- Overwriting isBestAnswer on a cleared reply equals overwriting it
on the original reply. -/
theorem clearReply_set_best (P : Nat) (r : ForumReply) :
    ({ MemStorage.clearReply P r with isBestAnswer := true } : ForumReply)
      = { r with isBestAnswer := true } := by
  rw [MemStorage.clearReply]
  split <;> rfl

theorem mapHas_of_mapGet_some (m : JsMap α) (k : Nat) (v : α)
    (h : mapGet m k = some v) : mapHas m k = true := by
  rw [mapHas_eq_isSome_mapGet, h]
  rfl

/-- Bound on the per-pair registration count after one mapSet. -/
theorem countP_values_mapSet_le (q : α → Bool) (m : JsMap α)
    (hN : KeysNodup m) (k : Nat) (v : α) :
    (mapValues (mapSet m k v)).countP q
      ≤ (mapValues m).countP q + (if q v then 1 else 0) := by
  induction m with
  | nil =>
    rw [mapSet_nil]
    simp [mapValues, List.countP_cons]
  | cons e t ih =>
    obtain ⟨a, x⟩ := e
    obtain ⟨hfresh, hN'⟩ := keys_nodup_cons a x t hN
    by_cases hak : a = k
    · subst hak
      rw [mapSet_cons_self x t a v (fun e he => hfresh e he)]
      show (v :: mapValues t).countP q ≤ (x :: mapValues t).countP q + _
      rw [List.countP_cons, List.countP_cons]
      omega
    · rw [mapSet_cons_of_ne a x t k v hak]
      show (x :: mapValues (mapSet t k v)).countP q ≤ (x :: mapValues t).countP q + _
      rw [List.countP_cons, List.countP_cons]
      have hih := ih hN'
      omega

/-- The delete loop of deleteForumPost computed as a filter over the
starting accumulator. -/
theorem deleteFold_filter (m : JsMap ForumReply) (P : Nat) :
    ∀ acc : JsMap ForumReply,
      (m.foldl (fun acc e => if e.2.postId == P then mapDelete acc e.1 else acc) acc)
        = acc.filter (fun e =>
            !(m.any (fun x => x.2.postId == P && x.1 == e.1))) := by
  induction m with
  | nil =>
    intro acc
    rw [List.foldl_nil]
    have : ∀ e ∈ acc, (!(([] : JsMap ForumReply).any
        (fun x => x.2.postId == P && x.1 == e.1))) = true := by
      intro e _
      rfl
    rw [List.filter_congr this, List.filter_true]
  | cons x m ih =>
    intro acc
    rw [List.foldl_cons]
    by_cases hx : (x.2.postId == P) = true
    · rw [if_pos hx, ih, mapDelete, List.filter_filter]
      apply List.filter_congr
      intro e _
      simp only [List.any_cons]
      rw [hx, Bool.true_and, Bool.not_or]
      have hcomm : (x.1 == e.1) = (e.1 == x.1) := by
        by_cases h : x.1 = e.1
        · rw [h]
        · rw [beq_eq_false_iff_ne.mpr h,
             beq_eq_false_iff_ne.mpr (fun hh => h hh.symm)]
      rw [hcomm, Bool.and_comm]
    · rw [if_neg hx, ih]
      apply List.filter_congr
      intro e _
      rw [Bool.not_eq_true] at hx
      rw [List.any_cons, hx, Bool.false_and, Bool.false_or]

/-- On a well-formed reply map the cascade delete is exactly the
filter that drops the post's replies. -/
theorem deleteForumPost_replies (s : MemState) (P : Nat)
    (hN : KeysNodup s.forumReplies) :
    (MemStorage.deleteForumPost s P).2.forumReplies
      = s.forumReplies.filter (fun e => !(e.2.postId == P)) := by
  show s.forumReplies.foldl
      (fun acc e => if e.2.postId == P then mapDelete acc e.1 else acc)
      s.forumReplies = _
  rw [deleteFold_filter s.forumReplies P s.forumReplies]
  apply List.filter_congr
  intro e he
  congr 1
  by_cases hp : (e.2.postId == P) = true
  · rw [hp]
    rw [List.any_eq_true]
    exact ⟨e, he, by rw [hp]; simp⟩
  · rw [Bool.not_eq_true] at hp
    rw [hp]
    rw [List.any_eq_false]
    intro x hx
    intro hcon
    obtain ⟨h1, h2⟩ := Bool.and_eq_true_iff.mp hcon
    have hxe : x = e := entry_eq_of_keys_nodup _ hN x e hx he
      (by rw [Nat.beq_eq_true_eq] at h2; exact h2)
    rw [hxe] at h1
    rw [h1] at hp
    cases hp

/-! Claim theorems. -/

/-- C1 counterexample: the invariant as claimed, quantified over all
sequences of the six storage operations, is false: starting from the
empty store (which satisfies the invariant), two createForumReply calls
followed by two updateForumReply calls whose payload sets isBestAnswer
leave post 1 with two best answers. -/
theorem C1_counterexample :
    BestAnswerInv MemState.empty ∧
      ¬ BestAnswerInv (applyForumOps MemState.empty twoBestOps) := by
  constructor
  · intro P
    exact Nat.zero_le 1
  · intro h
    exact absurd (h 1) (by decide)

/-- C1 (amended): starting from a well-formed store satisfying the
invariant, any sequence of createForumReply, updateForumReply,
upvoteForumReply, markAsBestAnswer, deleteForumReply and
deleteForumPost keeps at most one best answer per post, provided each
updateForumReply payload touches neither isBestAnswer nor postId and
each markAsBestAnswer(P, R) call targets a reply belonging to P
whenever R exists. -/
theorem C1_best_answer_invariant (s : MemState) (ops : List ForumOp)
    (hN : KeysNodup s.forumReplies) (hInv : BestAnswerInv s)
    (hT : SafeTrace s ops) :
    BestAnswerInv (applyForumOps s ops) :=
  bestAnswerInv_trace s ops hN hInv hT

/-- C1 witness: a concrete safe trace (create a reply on post 1, mark
it best) keeps post 1 at no more than one best answer. -/
theorem C1_witness :
    bestCount (applyForumOps MemState.empty
      [ForumOp.createReply sampleInsertReply 0,
       ForumOp.markBest 1 1]).forumReplies 1 ≤ 1 :=
  C1_best_answer_invariant MemState.empty
    [ForumOp.createReply sampleInsertReply 0, ForumOp.markBest 1 1]
    (by decide) (fun _ => Nat.zero_le 1)
    (SafeTrace.cons _ _ _ trivial
      (SafeTrace.cons _ _ _ rfl (SafeTrace.nil _))) 1

/-- C2: a user present in the users map with at least one contest
result gets exactly one leaderboard row, whose score is the sum of
that user's ContestResult scores (and whose contestCount is the raw
row count, as MemStorage computes it). -/
theorem C2_leaderboard_score (s : MemState) (U : Nat) (u : User)
    (hOK : UsersOK s.users) (hu : mapGet s.users U = some u)
    (hres : resultsFor (mapValues s.contestResults) U ≠ []) :
    (MemStorage.getLeaderboard s).filter (fun row => row.id == U) =
      [{ id := U, username := u.username, displayName := u.displayName
         avatar := u.avatar, level := u.level
         score := scoreSum (mapValues s.contestResults) U
         contestCount := (resultsFor (mapValues s.contestResults) U).length }] :=
  memLeaderboard_row s U u hOK hu hres

/-- C2 witness: user 2 with rows of 80 and 60 gets one row with score
140. -/
theorem C2_witness :
    (MemStorage.getLeaderboard dupResultState).filter (fun row => row.id == 2) =
      [{ id := 2, username := "bob", displayName := "Bob", avatar := none
         level := "beginner", score := 140, contestCount := 2 }] := by
  rw [C2_leaderboard_score dupResultState 2 memberUser (by decide) (by decide)
    (by decide)]
  decide

/-- C3: the code bug evaluated.  With two results of user 2 for the
same event 1, MemStorage.getLeaderboard reports contestCount 2 (it
counts rows), while the number of distinct eventIds is 1 and the
PostgreSQL backend (COUNT(DISTINCT event_id)) reports 1 as the claim
demands. -/
theorem C3_contest_count_code_bug :
    (MemStorage.getLeaderboard dupResultState).map (fun row => row.contestCount)
        = [2]
    ∧ ((resultsFor (mapValues dupResultState.contestResults) 2).map
        (fun r => r.eventId)).dedup.length = 1
    ∧ (PostgreSQLStorage.getLeaderboard (mapValues dupResultState.users)
        (mapValues dupResultState.contestResults)).map
          (fun row => row.contestCount) = [1] := by
  refine ⟨by decide, by decide, by decide⟩

/-- C4 counterexample: on the same state the two backends return
different leaderboards (their contestCount fields disagree), so the
backends are not behaviorally identical. -/
theorem C4_counterexample :
    MemStorage.getLeaderboard dupResultState ≠
      PostgreSQLStorage.getLeaderboard (mapValues dupResultState.users)
        (mapValues dupResultState.contestResults) := by
  decide

/-- C4 (amended): the backends do agree on the leaderboard score of
every user: for each user present with results, the score of the one
row both backends produce for that user is the same sum. -/
theorem C4_backend_score_agreement (s : MemState) (U : Nat) (u : User)
    (hOK : UsersOK s.users) (hN : KeysNodup s.users)
    (hu : mapGet s.users U = some u)
    (hres : resultsFor (mapValues s.contestResults) U ≠ []) :
    ((MemStorage.getLeaderboard s).filter (fun row => row.id == U)).map
        (fun row => row.score)
      = ((PostgreSQLStorage.getLeaderboard (mapValues s.users)
          (mapValues s.contestResults)).filter (fun row => row.id == U)).map
        (fun row => row.score) := by
  rw [memLeaderboard_row s U u hOK hu hres, pgLeaderboard_row s U u hOK hN hu hres]
  rfl

/-- C4 witness: on the duplicate-result state the per-user scores of
the two backends agree. -/
theorem C4_witness :
    ((MemStorage.getLeaderboard dupResultState).filter
        (fun row => row.id == 2)).map (fun row => row.score)
      = ((PostgreSQLStorage.getLeaderboard (mapValues dupResultState.users)
          (mapValues dupResultState.contestResults)).filter
        (fun row => row.id == 2)).map (fun row => row.score) :=
  C4_backend_score_agreement dupResultState 2 memberUser (by decide) (by decide)
    (by decide) (by decide)

/-- C5: marking reply R of post P as best answer returns R with
isBestAnswer set, and in the resulting store a reply of P carries
isBestAnswer = true exactly when it is stored under key R. -/
theorem C5_mark_best_answer (s : MemState) (P R : Nat) (r : ForumReply)
    (hget : mapGet s.forumReplies R = some r) (hpost : r.postId = P) :
    (MemStorage.markAsBestAnswer s P R).1 = some { r with isBestAnswer := true }
    ∧ ∀ (k : Nat) (q : ForumReply),
        (k, q) ∈ (MemStorage.markAsBestAnswer s P R).2.forumReplies →
        q.postId = P → (q.isBestAnswer = true ↔ k = R) := by
  have hgc : mapGet (MemStorage.clearBestAnswers s.forumReplies P) R
      = some (MemStorage.clearReply P r) := by
    rw [mapGet_clearBestAnswers, hget]
    rfl
  have h1 : (MemStorage.markAsBestAnswer s P R).1
      = some { MemStorage.clearReply P r with isBestAnswer := true } := by
    simp only [MemStorage.markAsBestAnswer, hgc]
  have h2 : (MemStorage.markAsBestAnswer s P R).2.forumReplies
      = mapSet (MemStorage.clearBestAnswers s.forumReplies P) R
          { MemStorage.clearReply P r with isBestAnswer := true } := by
    simp only [MemStorage.markAsBestAnswer, hgc]
  constructor
  · rw [h1, clearReply_set_best]
  · intro k q hmem hq
    rw [h2] at hmem
    have hhas : mapHas (MemStorage.clearBestAnswers s.forumReplies P) R = true :=
      mapHas_of_mapGet_some _ _ _ hgc
    rw [mapSet_eq_map_of_has _ _ _ hhas] at hmem
    obtain ⟨e₀, he₀, hfe⟩ := List.mem_map.mp hmem
    by_cases hek : (e₀.1 == R) = true
    · rw [if_pos hek] at hfe
      have hk : R = k := congrArg Prod.fst hfe
      have hqv : ({ MemStorage.clearReply P r with isBestAnswer := true } :
          ForumReply) = q := congrArg Prod.snd hfe
      constructor
      · intro _
        exact hk.symm
      · intro _
        rw [← hqv]
    · rw [if_neg hek] at hfe
      have hk : k ≠ R := by
        intro hh
        have he1 : e₀.1 = k := congrArg Prod.fst hfe
        rw [Bool.not_eq_true] at hek
        rw [beq_eq_false_iff_ne] at hek
        exact hek (he1.trans hh)
      have hqb : q.isBestAnswer = false := by
        apply clearBestAnswers_no_best s.forumReplies P (k, q) _ hq
        rw [← hfe]
        exact he₀
      constructor
      · intro hbt
        rw [hqb] at hbt
        cases hbt
      · intro hkR
        exact absurd hkR hk

/-- C5 witness: after marking reply A of post 1 best and then reply B,
the call returns B with isBestAnswer set, and A (still stored with its
original record, best flag down) is best iff 1 = 2, that is, not. -/
theorem C5_witness :
    (MemStorage.markAsBestAnswer markedAState 1 2).1
        = some { replyB with isBestAnswer := true }
    ∧ (replyA.isBestAnswer = true ↔ (1 : Nat) = 2) := by
  have h := C5_mark_best_answer markedAState 1 2 replyB (by decide) rfl
  exact ⟨h.1, h.2 1 replyA (by decide) rfl⟩

/-- C6: the code bug evaluated.  On a store where reply 1 is post 1's
best answer and reply 99 does not exist, MemStorage.markAsBestAnswer
throws (none) but leaves the store CHANGED: the prior best answer is
already cleared.  The PostgreSQL version of the same call rolls the
transaction back and reports failure with the table untouched. -/
theorem C6_mark_best_not_atomic :
    (MemStorage.markAsBestAnswer bestAnswerState 1 99).1 = none
    ∧ (MemStorage.markAsBestAnswer bestAnswerState 1 99).2 ≠ bestAnswerState
    ∧ mapGet (MemStorage.markAsBestAnswer bestAnswerState 1 99).2.forumReplies 1
        = some { bestReply1 with isBestAnswer := false }
    ∧ PostgreSQLStorage.markAsBestAnswer [bestReply1] 1 99 = none := by
  refine ⟨by decide, by decide, by decide, by decide⟩

/-- C7: the code bug evaluated.  A caller whose role is member (not
admin) successfully creates an event and a resource: both handlers
answer 201 and write the new row, although the documentation declares
both endpoints admin-only. -/
theorem C7_event_resource_not_admin_gated :
    memberUser.role ≠ "admin"
    ∧ (Routes.postEvents MemState.empty (some memberUser) sampleInsertEvent 0).1
        = 201
    ∧ (Routes.postEvents MemState.empty (some memberUser)
        sampleInsertEvent 0).2.events ≠ []
    ∧ (Routes.postResources MemState.empty (some memberUser)
        sampleInsertResource 0).1 = 201
    ∧ (Routes.postResources MemState.empty (some memberUser)
        sampleInsertResource 0).2.resources ≠ [] := by
  refine ⟨by decide, by decide, by decide, by decide, by decide⟩

/-- C8: a second registration of the same user for the same event is
answered 400 with the store unchanged, and the register handler keeps
the at-most-one-row-per-(event, user) invariant. -/
theorem C8_duplicate_registration (s : MemState) (u : User) (E now : Nat) :
    (∀ ev reg, mapGet s.events E = some ev →
        MemStorage.getEventRegistration s E u.id = some reg →
        Routes.postEventRegister s (some u) E now = (400, s))
    ∧ (KeysNodup s.eventRegistrations → AtMostOneRegPerPair s →
        AtMostOneRegPerPair (Routes.postEventRegister s (some u) E now).2) := by
  constructor
  · intro ev reg hev hreg
    simp only [Routes.postEventRegister, MemStorage.getEvent, hev, hreg]
  · intro hN hA
    cases hev : mapGet s.events E with
    | none =>
      have hstate : (Routes.postEventRegister s (some u) E now).2 = s := by
        simp only [Routes.postEventRegister, MemStorage.getEvent, hev]
      rw [hstate]
      exact hA
    | some ev =>
      cases hreg : MemStorage.getEventRegistration s E u.id with
      | some reg =>
        have hstate : (Routes.postEventRegister s (some u) E now).2 = s := by
          simp only [Routes.postEventRegister, MemStorage.getEvent, hev, hreg]
        rw [hstate]
        exact hA
      | none =>
        have hstate : (Routes.postEventRegister s (some u) E now).2.eventRegistrations
            = mapSet s.eventRegistrations s.eventRegistrationId
                { id := s.eventRegistrationId, eventId := E, userId := u.id,
                  registeredAt := now } := by
          simp only [Routes.postEventRegister, MemStorage.getEvent, hev, hreg,
            MemStorage.createEventRegistration]
        intro E' U'
        rw [AtMostOneRegPerPair] at hA
        rw [← List.countP_eq_length_filter, hstate]
        have hle : List.countP (fun reg => reg.eventId == E' && reg.userId == U')
            (mapValues (mapSet s.eventRegistrations s.eventRegistrationId
              { id := s.eventRegistrationId, eventId := E, userId := u.id,
                registeredAt := now }))
            ≤ List.countP (fun reg => reg.eventId == E' && reg.userId == U')
                (mapValues s.eventRegistrations)
              + (if (E == E' && u.id == U') = true then 1 else 0) :=
          countP_values_mapSet_le
            (fun reg => reg.eventId == E' && reg.userId == U')
            s.eventRegistrations hN s.eventRegistrationId
            { id := s.eventRegistrationId, eventId := E, userId := u.id,
              registeredAt := now }
        have hAc := hA E' U'
        rw [← List.countP_eq_length_filter] at hAc
        by_cases hq : (E == E' && u.id == U') = true
        · obtain ⟨hq1, hq2⟩ := Bool.and_eq_true_iff.mp hq
          have hE : E = E' := by simpa using hq1
          have hU : u.id = U' := by simpa using hq2
          subst hE
          subst hU
          have hzero : (mapValues s.eventRegistrations).countP
              (fun reg => reg.eventId == E && reg.userId == u.id) = 0 := by
            rw [List.countP_eq_zero]
            rw [MemStorage.getEventRegistration, List.find?_eq_none] at hreg
            exact hreg
          rw [if_pos hq] at hle
          omega
        · rw [if_neg hq] at hle
          omega

/-- C8 witness: member 2 is registered for event 1; a second request
is answered 400 with the store unchanged, and the (1, 2) pair still
has at most one row afterwards. -/
theorem C8_witness :
    Routes.postEventRegister registeredState (some memberUser) 1 5
        = (400, registeredState)
    ∧ ((mapValues (Routes.postEventRegister registeredState (some memberUser)
        1 5).2.eventRegistrations).filter
        (fun reg => reg.eventId == 1 && reg.userId == 2)).length ≤ 1 := by
  have h := C8_duplicate_registration registeredState memberUser 1 5
  refine ⟨h.1 sampleEvent sampleRegistration (by decide) (by decide), ?_⟩
  exact h.2 (by decide)
    (fun E U => le_trans (List.length_filter_le _ _) (le_refl 1)) 1 2

/-- C9: deleting a post removes every reply of that post, keeps every
reply of other posts, and removes the post row itself. -/
theorem C9_delete_post_cascade (s : MemState) (P : Nat)
    (hN : KeysNodup s.forumReplies) :
    (∀ e ∈ (MemStorage.deleteForumPost s P).2.forumReplies, e.2.postId ≠ P)
    ∧ (∀ e : Nat × ForumReply, e.2.postId ≠ P →
        (e ∈ (MemStorage.deleteForumPost s P).2.forumReplies ↔
          e ∈ s.forumReplies))
    ∧ mapGet (MemStorage.deleteForumPost s P).2.forumPosts P = none := by
  have hrepl := deleteForumPost_replies s P hN
  refine ⟨?_, ?_, ?_⟩
  · intro e he
    rw [hrepl] at he
    have hf := List.of_mem_filter he
    intro hp
    rw [hp] at hf
    simp at hf
  · intro e hp
    rw [hrepl, List.mem_filter]
    constructor
    · exact fun h => h.1
    · intro h
      refine ⟨h, ?_⟩
      rw [beq_eq_false_iff_ne.mpr hp]
      rfl
  · show mapGet (mapDelete s.forumPosts P) P = none
    rw [mapGet_mapDelete, if_pos rfl]

/-- C9 witness: deleting post 1 of the two-post store keeps reply 2
(which belongs to post 2) and drops the post-1 rows. -/
theorem C9_witness :
    ((2, { replyB with postId := 2 })
        ∈ (MemStorage.deleteForumPost twoPostState 1).2.forumReplies ↔
      (2, { replyB with postId := 2 }) ∈ twoPostState.forumReplies)
    ∧ mapGet (MemStorage.deleteForumPost twoPostState 1).2.forumPosts 1 = none := by
  have h := C9_delete_post_cascade twoPostState 1 (by decide)
  exact ⟨h.2.1 (2, { replyB with postId := 2 }) (by decide), h.2.2⟩

/-- C10: createUser stores and returns a user whose role is member and
whose level is beginner, in both backends, for every insert record
(InsertUser carries no role or level field at all, so the caller
cannot supply one). -/
theorem C10_new_user_defaults (s : MemState) (ins : InsertUser) (now : Nat)
    (users : List User) (nextId : Nat) (hN : KeysNodup s.users) :
    (MemStorage.createUser s ins now).1.role = "member"
    ∧ (MemStorage.createUser s ins now).1.level = "beginner"
    ∧ mapGet (MemStorage.createUser s ins now).2.users s.userId
        = some (MemStorage.createUser s ins now).1
    ∧ (PostgreSQLStorage.createUser users nextId ins now).1.role = "member"
    ∧ (PostgreSQLStorage.createUser users nextId ins now).1.level = "beginner"
    ∧ (PostgreSQLStorage.createUser users nextId ins now).1
        ∈ (PostgreSQLStorage.createUser users nextId ins now).2 := by
  refine ⟨rfl, rfl, ?_, rfl, rfl, ?_⟩
  · show mapGet (mapSet s.users s.userId _) s.userId = _
    rw [mapGet_mapSet _ hN, if_pos rfl]
    rfl
  · show (PostgreSQLStorage.createUser users nextId ins now).1 ∈ users ++ [_]
    exact List.mem_append_right _ (List.mem_singleton_self _)

/-- C10 witness: creating a sample user in the freshly constructed
store yields role member and level beginner. -/
theorem C10_witness :
    (MemStorage.createUser (MemState.init 0) sampleInsertUser 7).1.role = "member"
    ∧ (MemStorage.createUser (MemState.init 0) sampleInsertUser 7).1.level
        = "beginner" := by
  have h := C10_new_user_defaults (MemState.init 0) sampleInsertUser 7 [] 1
    (by decide)
  exact ⟨h.1, h.2.1⟩

end DSAC
